import Mathlib

/-!
Verification development for the repo-sweep core: the artifact scanner
(`src/scanner.ts`) and the interactive terminal selector (`src/ui.ts`).

The filesystem is modelled as a tree of named entries.  Paths are lists of
segments.  Machine integers are modelled as `Nat` (sizes and counts are
non-negative and far below 2^53, where JavaScript number arithmetic on
integers is exact).  Fallible OS calls are modelled by data: a directory
node carries a flag saying whether `readdir` succeeds on it, and a file or
symlink node carries `Option Nat` — `none` meaning `stat` throws for it.
-/

/-- A filesystem node.  `file name size` / `symlink name size`: `size = none`
models a `stat` call that throws (vanished entry, broken symlink target).
`dir name ok entries`: `ok = false` models a directory whose `readdir` fails;
its `entries` are then unobservable by the program. -/
inductive FSTree where
  | file (name : String) (size : Option Nat) : FSTree
  | symlink (name : String) (size : Option Nat) : FSTree
  | dir (name : String) (ok : Bool) (entries : List FSTree) : FSTree
deriving Repr

/-- The name of a node. -/
def FSTree.name : FSTree → String
  | .file n _ => n
  | .symlink n _ => n
  | .dir n _ _ => n

/-- Embedding of the `PATTERNS` table of `src/scanner.ts`: basename to
description, in source order.  A `Record<string, string>` is modelled as an
association list. -/
def PATTERNS : List (String × String) :=
  [("node_modules", "Node.js dependencies"),
   (".next", "Next.js build cache"),
   (".nuxt", "Nuxt.js build cache"),
   (".output", "Nuxt/Nitro output"),
   (".svelte-kit", "SvelteKit build cache"),
   (".angular", "Angular build cache"),
   (".cache", "Build cache"),
   (".parcel-cache", "Parcel bundler cache"),
   (".turbo", "Turborepo cache"),
   (".vercel", "Vercel deployment cache"),
   (".expo", "Expo cache"),
   (".webpack", "Webpack cache"),
   ("target", "Rust/Cargo build output"),
   ("Pods", "CocoaPods dependencies"),
   (".venv", "Python virtual environment"),
   ("venv", "Python virtual environment"),
   ("__pycache__", "Python bytecode cache"),
   (".pytest_cache", "Pytest cache"),
   (".mypy_cache", "Mypy type checker cache"),
   (".tox", "Tox testing cache"),
   (".dart_tool", "Dart build cache"),
   (".gradle", "Gradle build cache"),
   ("build", "Build output"),
   ("dist", "Build output"),
   ("out", "Build output"),
   ("coverage", "Test coverage reports"),
   (".sass-cache", "Sass compiler cache"),
   ("bower_components", "Bower dependencies"),
   (".eggs", "Python egg cache"),
   ("DerivedData", "Xcode build data"),
   (".terraform", "Terraform cache"),
   (".serverless", "Serverless Framework cache"),
   (".docusaurus", "Docusaurus build cache"),
   (".astro", "Astro build cache"),
   (".pnpm-store", "pnpm global store"),
   (".playwright", "Playwright browsers"),
   ("release", "Release builds")]

/-- Embedding of `SKIP_DIRS` of `src/scanner.ts`. -/
def SKIP_DIRS : List String := [".git"]

/-- Embedding of `MIN_SIZE` of `src/scanner.ts`: `100 * 1024`. -/
def MIN_SIZE : Nat := 100 * 1024

/-- One scan result record (`ScanResult` of `src/scanner.ts`).  Paths are
segment lists: `path` is the absolute path (`join(dir, entry.name)`),
`relativePath` the path relative to the scan root. -/
structure ScanResult where
  path : List String
  relativePath : List String
  size : Nat
  fileCount : Nat
  description : String
deriving Repr, DecidableEq

mutual

/-- Embedding of `getDirStats` of `src/scanner.ts`.  A failing `readdir`
(`ok = false`) yields `(0, 0)` via the surrounding catch.  Otherwise the
entry loop runs (`statEntries`). -/
def getDirStats : FSTree → Nat × Nat
  | .file _ _ => (0, 0)
  | .symlink _ _ => (0, 0)
  | .dir _ false _ => (0, 0)
  | .dir _ true entries => statEntries entries

/-- The entry loop of `getDirStats`.  For a file or symlink the count is
incremented and then `stat` is awaited: if it throws (`size = none`) the
exception aborts the rest of the loop, and the accumulated partial totals
are returned by the catch — entries after the failing one contribute
nothing.  A subdirectory folds in its own `getDirStats`, which never
throws. -/
def statEntries : List FSTree → Nat × Nat
  | [] => (0, 0)
  | .file _ none :: _ => (0, 1)
  | .file _ (some s) :: rest =>
      let r := statEntries rest
      (s + r.1, 1 + r.2)
  | .symlink _ none :: _ => (0, 1)
  | .symlink _ (some s) :: rest =>
      let r := statEntries rest
      (s + r.1, 1 + r.2)
  | .dir n ok es :: rest =>
      let d := getDirStats (.dir n ok es)
      let r := statEntries rest
      (d.1 + r.1, d.2 + r.2)

end

/-- Modelled from the spec: the `ScanFilter` type imported by the CLI from
the scanner is not present in the scanner source shown; the spec states a
filter "is either an only set of categories ... or an exclude set of
categories", the two being mutually exclusive by construction. -/
inductive ScanFilter where
  | only (cats : List String) : ScanFilter
  | exclude (cats : List String) : ScanFilter
deriving Repr, DecidableEq

/-- Modelled from the spec: the `getCategories` mapping imported by the CLI
is not present in the scanner source shown; the category table is taken
from the repository README ("Categories" section), which lists each
category's directory basenames. -/
def getCategories : List (String × List String) :=
  [("node", ["node_modules", "bower_components", ".pnpm-store"]),
   ("python", [".venv", "venv", "__pycache__", ".pytest_cache", ".mypy_cache", ".tox", ".eggs"]),
   ("rust", ["target"]),
   ("ios", ["Pods", "DerivedData"]),
   ("frontend", [".next", ".nuxt", ".output", ".svelte-kit", ".angular", ".astro", ".docusaurus", ".expo"]),
   ("cache", [".cache", ".parcel-cache", ".turbo", ".webpack", ".sass-cache", ".dart_tool", ".gradle", ".terraform", ".playwright"]),
   ("build", ["build", "dist", "out", "release", "coverage"]),
   ("deploy", [".vercel", ".serverless"])]

/-- Union of the basename sets of the named categories. -/
def categoryBasenames (cats : List String) : List String :=
  ((getCategories.filter (fun c => decide (c.1 ∈ cats))).map (fun c => c.2)).flatten

/-- All basenames registered in `PATTERNS`. -/
def registryBasenames : List String := PATTERNS.map (fun p => p.1)

/-- Modelled from the spec: the allowed-basename set of a filter — for
`only`, the union of those categories' basenames; for `exclude`, all
registry basenames minus the union of the excluded categories'
basenames.  With no filter every basename is allowed. -/
def allowedBy : Option ScanFilter → String → Bool
  | none, _ => true
  | some (.only cats), name => decide (name ∈ categoryBasenames cats)
  | some (.exclude cats), name =>
      decide (name ∈ registryBasenames) && !(decide (name ∈ categoryBasenames cats))

/-- A directory basename produces a match: it is a key of `PATTERNS`
(the descriptions are non-empty, so `PATTERNS[name]` is truthy exactly when
the key is present) and the active filter, if any, allows it (the filter
conjunct is modelled from the spec; the scanner source shown has no filter
parameter). -/
def matchesName (filter : Option ScanFilter) (name : String) : Bool :=
  (List.lookup name PATTERNS).isSome && allowedBy filter name

/-- Path segments joined by the separator, as `node:path`'s `relative`
renders a descendant path. -/
def pathString (segs : List String) : String :=
  String.intercalate "/" segs

mutual

/-- Embedding of `findArtifacts` of `src/scanner.ts` for the directory at
`rootDir ++ relPath` whose `readdir` outcome is `ok`/`entries`: a failing
`readdir` returns with no results (the catch), otherwise the entry loop
runs.  Returns the records pushed and the progress messages emitted, in
order; `emit` says whether a progress callback was supplied (`onProgress?.`
calls are skipped without one).  The filter conjunct inside is modelled
from the spec (see `matchesName`); with `filter = none` this is exactly
the scanner source shown. -/
def findArtifacts (rootDir relPath : List String) (ok : Bool)
    (entries : List FSTree) (filter : Option ScanFilter) (emit : Bool)
    (depth : Nat) : List ScanResult × List String :=
  match ok with
  | false => ([], [])
  | true => walkEntries rootDir relPath entries filter emit depth

/-- The entry loop of `findArtifacts`: non-directories are skipped, then
`SKIP_DIRS`, then a matching basename emits a "Checking" message, runs
`getDirStats`, pushes a record and does not recurse; otherwise a
"Scanning" message is emitted at depth 0 only, and the walk recurses with
depth + 1. -/
def walkEntries (rootDir relPath : List String) (es : List FSTree)
    (filter : Option ScanFilter) (emit : Bool) (depth : Nat) :
    List ScanResult × List String :=
  match es with
  | [] => ([], [])
  | .file _ _ :: rest => walkEntries rootDir relPath rest filter emit depth
  | .symlink _ _ :: rest => walkEntries rootDir relPath rest filter emit depth
  | .dir name ok sub :: rest =>
      if decide (name ∈ SKIP_DIRS) then
        walkEntries rootDir relPath rest filter emit depth
      else if matchesName filter name then
        let msg :=
          if depth = 0 then "Checking " ++ name ++ "/"
          else "Checking " ++ pathString (relPath ++ [name])
        let stats := getDirStats (.dir name ok sub)
        let rec0 : ScanResult :=
          { path := rootDir ++ relPath ++ [name],
            relativePath := relPath ++ [name],
            size := stats.1,
            fileCount := stats.2,
            description := (List.lookup name PATTERNS).getD "" }
        let r := walkEntries rootDir relPath rest filter emit depth
        (rec0 :: r.1, (if emit then [msg] else []) ++ r.2)
      else
        let msgs0 :=
          if depth = 0 && emit then ["Scanning " ++ name ++ "/"] else []
        let s := findArtifacts rootDir (relPath ++ [name]) ok sub filter emit (depth + 1)
        let r := walkEntries rootDir relPath rest filter emit depth
        (s.1 ++ r.1, msgs0 ++ s.2 ++ r.2)

end

/-- Embedding of `scan` of `src/scanner.ts`: walk from the root (whose
`readdir` outcome is `ok`/`entries`), then sort the accumulated records by
size descending (`sort((a, b) => b.size - a.size)` — a stable sort, modelled
by `mergeSort`) and keep those with `size >= MIN_SIZE`. -/
def scan (rootDir : List String) (ok : Bool) (entries : List FSTree)
    (emit : Bool) (filter : Option ScanFilter) : List ScanResult :=
  let results := (findArtifacts rootDir [] ok entries filter emit 0).1
  (results.mergeSort (fun a b => decide (b.size ≤ a.size))).filter
    (fun r => decide (MIN_SIZE ≤ r.size))

/-- Rounding of ECMAScript `toFixed(0)` on the exact rational `num / den`:
the integer closest to the value, ties resolved to the larger integer
(round half up for non-negative values).  The divisions in `formatSize`
are by powers of two and exact in double precision for the byte counts the
program meets, so exact rational rounding is the faithful model. -/
def toFixed0 (num den : Nat) : Nat :=
  (2 * num + den) / (2 * den)

/-- Rendering of ECMAScript `toFixed(1)` on the exact rational `num / den`
(non-negative): the number of tenths, rounded half up, printed with one
decimal digit. -/
def toFixed1 (num den : Nat) : String :=
  let t := (20 * num + den) / (2 * den)
  s!"{t / 10}.{t % 10}"

/-- Embedding of `formatSize` of `src/ui.ts`. -/
def formatSize (bytes : Nat) : String :=
  if bytes < 1024 then s!"{bytes} B"
  else if bytes < 1024 * 1024 then s!"{toFixed0 bytes 1024} KB"
  else if bytes < 1024 * 1024 * 1024 then toFixed1 bytes (1024 * 1024) ++ " MB"
  else toFixed1 bytes (1024 * 1024 * 1024) ++ " GB"

/-- The mutable state of one `selectItems` session (`src/ui.ts`):
the per-item checkboxes, the cursor row, the first visible row, and
whether the terminal is in raw mode (`setRawMode(true)` on entry,
`setRawMode(false)` in `cleanup`). -/
structure SelState where
  selected : List Bool
  cursor : Nat
  scrollOffset : Nat
  rawMode : Bool
deriving Repr, DecidableEq

/-- The state `selectItems` builds before its first render:
`selected = new Array(items.length).fill(true)`, `cursor = 0`,
`scrollOffset = 0`, and the terminal switched to raw mode. -/
def initState (items : List ScanResult) : SelState :=
  { selected := List.replicate items.length true,
    cursor := 0, scrollOffset := 0, rawMode := true }

/-- Embedding of `cleanup` of `src/ui.ts`: releases raw mode (the pause
and listener removal have no observable effect on the modelled state). -/
def cleanup (st : SelState) : SelState :=
  { st with rawMode := false }

/-- Embedding of `getViewportHeight` of `src/ui.ts` for a terminal with
`termRows` rows: `Math.max(5, termHeight - 14)` (truncated subtraction on
`Nat` agrees with the JavaScript value, since any non-positive difference
loses to 5). -/
def getViewportHeight (termRows : Nat) : Nat :=
  max 5 (termRows - 14)

/-- The scroll clamp `render` performs (`src/ui.ts`): pull `scrollOffset`
up to the cursor, then down so the cursor is within the viewport; `vh` is
the viewport height of this render. -/
def clampScroll (vh : Nat) (st : SelState) : SelState :=
  let so := if st.cursor < st.scrollOffset then st.cursor else st.scrollOffset
  let so2 := if st.cursor ≥ so + vh then st.cursor - vh + 1 else so
  { st with scrollOffset := so2 }

/-- The subset `confirm` resolves with:
`items.filter((_, i) => selected[i])` — the records whose flag is true, in
original order (an out-of-range index reads as falsy in JavaScript, which
`zip`'s truncation reproduces). -/
def selectSubset (items : List ScanResult) (sel : List Bool) : List ScanResult :=
  ((items.zip sel).filter (fun p => p.2)).map (fun p => p.1)

/-- Outcome of handling one keystroke: the session continues in a new
state, exits the process (interrupt), or resolves the promise with a
subset (quit or confirm). -/
inductive StepOut where
  | next (st : SelState) : StepOut
  | exited (code : Nat) (st : SelState) : StepOut
  | resolvedWith (val : List ScanResult) (st : SelState) : StepOut
deriving Repr, DecidableEq

/-- Embedding of the `data` handler of `selectItems` (`src/ui.ts`) for one
keystroke.  Interrupt (`\x03`) runs `cleanup` and `process.exit(0)`; `q`
runs `cleanup` and resolves `[]`; the movement, toggle, all, none keys
update the state; enter runs `cleanup` and resolves the selected subset;
any other key changes nothing.  Every non-returning branch falls through
to `render()`, whose scroll clamp is applied (`vh` is the viewport height
of that render). -/
def handleKey (items : List ScanResult) (vh : Nat) (st : SelState)
    (key : String) : StepOut :=
  if key = "\x03" then .exited 0 (cleanup st)
  else if key = "q" then .resolvedWith [] (cleanup st)
  else if key = "\x1b[A" ∨ key = "k" then
    .next (clampScroll vh { st with cursor := st.cursor - 1 })
  else if key = "\x1b[B" ∨ key = "j" then
    .next (clampScroll vh { st with cursor := min (items.length - 1) (st.cursor + 1) })
  else if key = " " then
    .next (clampScroll vh
      { st with selected := st.selected.set st.cursor (!(st.selected.getD st.cursor false)) })
  else if key = "a" then
    .next (clampScroll vh { st with selected := List.replicate st.selected.length true })
  else if key = "n" then
    .next (clampScroll vh { st with selected := List.replicate st.selected.length false })
  else if key = "\r" then
    .resolvedWith (selectSubset items st.selected) (cleanup st)
  else .next (clampScroll vh st)

/-- Where a selection session stands after a sequence of keystrokes:
still waiting for input, exited the process, or resolved. -/
inductive SessionEnd where
  | pending (st : SelState) : SessionEnd
  | exited (code : Nat) (st : SelState) : SessionEnd
  | resolvedWith (val : List ScanResult) (st : SelState) : SessionEnd
deriving Repr, DecidableEq

/-- Feeding a sequence of keystrokes to the `selectItems` handler, stopping
at the first exit or resolution (later keys are never delivered: the
process is gone or the listeners removed). -/
def runKeys (items : List ScanResult) (vh : Nat) (st : SelState) :
    List String → SessionEnd
  | [] => .pending st
  | k :: rest =>
      match handleKey items vh st k with
      | .next st2 => runKeys items vh st2 rest
      | .exited c st2 => .exited c st2
      | .resolvedWith v st2 => .resolvedWith v st2

/-- Top-level stat failures in an entry list: true when no file or symlink
entry of the list itself has a failing `stat` (subdirectories may still
fail internally — their recursive aggregation absorbs that). -/
def noStatFailure (es : List FSTree) : Bool :=
  es.all fun e =>
    match e with
    | .file _ none => false
    | .symlink _ none => false
    | _ => true

theorem statEntries_stat_failure (nm : String) :
    ∀ (pre tail : List FSTree), noStatFailure pre = true →
      statEntries (pre ++ .file nm none :: tail) =
        ((statEntries pre).1, (statEntries pre).2 + 1) := by
  intro pre
  induction pre with
  | nil => intro tail _; simp [statEntries]
  | cons e rest ih =>
      intro tail hok
      match e with
      | .file n none => simp [noStatFailure] at hok
      | .symlink n none => simp [noStatFailure] at hok
      | .file n (some s) =>
          have hr : noStatFailure rest = true := by
            simp [noStatFailure] at hok ⊢; exact hok
          simp only [List.cons_append, statEntries, List.append_eq, ih tail hr, Prod.mk.injEq,
            true_and, and_true]
          omega
      | .symlink n (some s) =>
          have hr : noStatFailure rest = true := by
            simp [noStatFailure] at hok ⊢; exact hok
          simp only [List.cons_append, statEntries, List.append_eq, ih tail hr, Prod.mk.injEq,
            true_and, and_true]
          omega
      | .dir n ok es =>
          have hr : noStatFailure rest = true := by
            simp [noStatFailure] at hok ⊢; exact hok
          simp only [List.cons_append, statEntries, List.append_eq, ih tail hr, Prod.mk.injEq,
            true_and, and_true]
          omega

/-- C2 (counterexample): the claim says any read failure inside a directory
zeroes that directory's whole contribution.  On the concrete directory
holding a 5-byte file `a`, a file `b` whose `stat` throws, and a 7-byte
file `c`, `getDirStats` returns size 5 and file count 2 — the entries
before the failure keep their contribution and the failing entry itself is
counted, so the contribution is not zero. -/
theorem getDirStats_nonzero_after_stat_failure :
    getDirStats (.dir "d" true
      [.file "a" (some 5), .file "b" none, .file "c" (some 7)]) = (5, 2) ∧
    getDirStats (.dir "d" true
      [.file "a" (some 5), .file "b" none, .file "c" (some 7)]) ≠ (0, 0) := by
  constructor <;> decide

/-- C2 (amended): the aggregation never aborts and a directory whose
listing fails contributes zero; but a per-entry `stat` failure only zeroes
the remainder of that directory: entries already processed keep their
contribution, the failing entry still counts one file of zero bytes, and
entries after it contribute nothing. -/
theorem getDirStats_failure_policy :
    (∀ (n : String) (es : List FSTree), getDirStats (.dir n false es) = (0, 0)) ∧
    (∀ (n nm : String) (pre tail : List FSTree), noStatFailure pre = true →
      getDirStats (.dir n true (pre ++ .file nm none :: tail)) =
        ((statEntries pre).1, (statEntries pre).2 + 1)) := by
  constructor
  · intro n es; rfl
  · intro n nm pre tail hok
    simpa [getDirStats] using statEntries_stat_failure nm pre tail hok

/-- Witness for `getDirStats_failure_policy` at a concrete directory. -/
theorem getDirStats_failure_policy_witness :
    noStatFailure [.file "a" (some 5)] = true ∧
    getDirStats (.dir "d" true ([.file "a" (some 5)] ++ .file "b" none :: [.file "c" (some 7)])) =
      ((statEntries [.file "a" (some 5)]).1, (statEntries [.file "a" (some 5)]).2 + 1) :=
  ⟨by decide, getDirStats_failure_policy.2 "d" "b" [.file "a" (some 5)] [.file "c" (some 7)] (by decide)⟩

/-- C6: the size-formatting contract — bytes below 1024 render as an
integer byte count, below 1 MiB as KB with 0 decimals, below 1 GiB as MB
with 1 decimal, else GB with 1 decimal; and the three anchor values render
exactly as required. -/
theorem formatSize_contract :
    (∀ b : Nat, b < 1024 → formatSize b = s!"{b} B") ∧
    (∀ b : Nat, 1024 ≤ b → b < 1024 * 1024 → formatSize b = s!"{toFixed0 b 1024} KB") ∧
    (∀ b : Nat, 1024 * 1024 ≤ b → b < 1024 * 1024 * 1024 →
      formatSize b = toFixed1 b (1024 * 1024) ++ " MB") ∧
    (∀ b : Nat, 1024 * 1024 * 1024 ≤ b →
      formatSize b = toFixed1 b (1024 * 1024 * 1024) ++ " GB") ∧
    formatSize 1023 = "1023 B" ∧
    formatSize 1048576 = "1.0 MB" ∧
    formatSize 1073741824 = "1.0 GB" := by
  refine ⟨?_, ?_, ?_, ?_, by decide, by decide, by decide⟩
  · intro b h; rw [formatSize, if_pos h]
  · intro b h1 h2; rw [formatSize, if_neg (by omega), if_pos h2]
  · intro b h1 h2; rw [formatSize, if_neg (by omega), if_neg (by omega), if_pos h2]
  · intro b h1; rw [formatSize, if_neg (by omega), if_neg (by omega), if_neg (by omega)]

/-- Witness for `formatSize_contract` at the KB boundary value 1024. -/
theorem formatSize_contract_witness :
    1024 ≤ 1024 ∧ 1024 < 1024 * 1024 ∧ formatSize 1024 = "1 KB" := by
  refine ⟨by decide, by decide, ?_⟩
  have h := formatSize_contract.2.1 1024 (by decide) (by decide)
  simpa using h

/-- C10: when the root directory's listing fails, the walk returns no
records and `scan` resolves with the empty list instead of raising. -/
theorem scan_unreadable_root_empty :
    ∀ (rootDir : List String) (entries : List FSTree) (emit : Bool)
      (filter : Option ScanFilter),
      scan rootDir false entries emit filter = [] := by
  intro rootDir entries emit filter
  simp [scan, findArtifacts]

theorem walk_fst_emit (rootDir : List String) :
    ∀ (relPath : List String) (es : List FSTree) (filter : Option ScanFilter)
      (emit : Bool) (depth : Nat), ∀ e2 : Bool,
      (walkEntries rootDir relPath es filter emit depth).1 =
      (walkEntries rootDir relPath es filter e2 depth).1 := by
  refine walkEntries.induct rootDir
    (fun rp ok es f emit d => ∀ e2,
      (findArtifacts rootDir rp ok es f emit d).1 =
      (findArtifacts rootDir rp ok es f e2 d).1)
    (fun rp es f emit d => ∀ e2,
      (walkEntries rootDir rp es f emit d).1 =
      (walkEntries rootDir rp es f e2 d).1)
    ?_ ?_ ?_ ?_ ?_ ?_ ?_ ?_
  · intro rp es f emit d e2
    simp [findArtifacts]
  · intro rp es f emit d ih e2
    simpa [findArtifacts] using ih e2
  · intro rp f emit d e2
    simp [walkEntries]
  · intro rp f emit d name size rest ih e2
    simpa [walkEntries] using ih e2
  · intro rp f emit d name size rest ih e2
    simpa [walkEntries] using ih e2
  · intro rp f emit d name ok sub rest hskip ih e2
    simp [walkEntries, hskip, ih e2]
  · intro rp f emit d name ok sub rest hskip hmatch ih e2
    simp [walkEntries, hskip, hmatch, ih e2]
  · intro rp f emit d name ok sub rest hskip hmatch ih1 ih2 e2
    simp [walkEntries, hskip, hmatch, ih1 e2, ih2 e2]

theorem findArtifacts_fst_emit (rootDir relPath : List String) (ok : Bool)
    (es : List FSTree) (filter : Option ScanFilter) (emit e2 : Bool) (depth : Nat) :
    (findArtifacts rootDir relPath ok es filter emit depth).1 =
    (findArtifacts rootDir relPath ok es filter e2 depth).1 := by
  cases ok
  · simp [findArtifacts]
  · simpa [findArtifacts] using walk_fst_emit rootDir relPath es filter emit depth e2

/-- C9: the record list `scan` produces does not depend on whether a
progress sink was supplied — a run with a sink and a run without one
return equal results (the sink only receives status strings). -/
theorem scan_independent_of_progress_sink :
    ∀ (rootDir : List String) (ok : Bool) (entries : List FSTree)
      (filter : Option ScanFilter) (e1 e2 : Bool),
      scan rootDir ok entries e1 filter = scan rootDir ok entries e2 filter := by
  intro rootDir ok entries filter e1 e2
  simp only [scan]
  rw [findArtifacts_fst_emit rootDir [] ok entries filter e1 e2 0]

/-- The segment chain of a discovered artifact below the directory the walk
started in: every intermediate segment failed to match (which is why the
walk descended through it) and the final segment matched. -/
def chainTo (filter : Option ScanFilter) (q : List String) : Prop :=
  ∃ q0 m, q = q0 ++ [m] ∧ (∀ x ∈ q0, matchesName filter x = false) ∧
    matchesName filter m = true

theorem walk_results_chain (rootDir : List String) :
    ∀ (relPath : List String) (es : List FSTree) (filter : Option ScanFilter)
      (emit : Bool) (depth : Nat),
      ∀ r ∈ (walkEntries rootDir relPath es filter emit depth).1,
        r.path = rootDir ++ r.relativePath ∧
        ∃ q, r.relativePath = relPath ++ q ∧ chainTo filter q := by
  refine walkEntries.induct rootDir
    (fun rp ok es f emit d =>
      ∀ r ∈ (findArtifacts rootDir rp ok es f emit d).1,
        r.path = rootDir ++ r.relativePath ∧
        ∃ q, r.relativePath = rp ++ q ∧ chainTo f q)
    (fun rp es f emit d =>
      ∀ r ∈ (walkEntries rootDir rp es f emit d).1,
        r.path = rootDir ++ r.relativePath ∧
        ∃ q, r.relativePath = rp ++ q ∧ chainTo f q)
    ?_ ?_ ?_ ?_ ?_ ?_ ?_ ?_
  · intro rp es f emit d r hr
    simp [findArtifacts] at hr
  · intro rp es f emit d ih r hr
    simp only [findArtifacts] at hr
    exact ih r hr
  · intro rp f emit d r hr
    simp [walkEntries] at hr
  · intro rp f emit d name size rest ih r hr
    simp only [walkEntries] at hr
    exact ih r hr
  · intro rp f emit d name size rest ih r hr
    simp only [walkEntries] at hr
    exact ih r hr
  · intro rp f emit d name ok sub rest hskip ih r hr
    simp only [walkEntries, hskip, if_pos] at hr
    exact ih r hr
  · intro rp f emit d name ok sub rest hskip hmatch ih r hr
    simp only [walkEntries, if_neg hskip, hmatch, if_pos] at hr
    rcases List.mem_cons.1 hr with hr0 | hrest
    · subst hr0
      refine ⟨by simp [List.append_assoc], [name], rfl, [], name, rfl, by simp, hmatch⟩
    · exact ih r hrest
  · intro rp f emit d name ok sub rest hskip hmatch ih1 ih2 r hr
    simp only [walkEntries, if_neg hskip, if_neg hmatch] at hr
    rcases List.mem_append.1 hr with hsub | hrest
    · obtain ⟨hpath, q', hq', q0, m, hq0, hall, hm⟩ := ih1 r hsub
      refine ⟨hpath, name :: q', ?_, name :: q0, m, ?_, ?_, hm⟩
      · rw [hq']; simp
      · rw [hq0]; rfl
      · intro x hx
        rcases List.mem_cons.1 hx with hx0 | hx1
        · subst hx0; simpa using hmatch
        · exact hall x hx1
    · exact ih2 r hrest

theorem mem_findArtifacts_of_mem_scan
    {rootDir : List String} {ok : Bool} {entries : List FSTree} {emit : Bool}
    {filter : Option ScanFilter} {r : ScanResult}
    (h : r ∈ scan rootDir ok entries emit filter) :
    r ∈ (findArtifacts rootDir [] ok entries filter emit 0).1 := by
  simp only [scan] at h
  exact List.mem_mergeSort.1 (List.mem_of_mem_filter h)

theorem scan_mem_chain
    {rootDir : List String} {ok : Bool} {entries : List FSTree} {emit : Bool}
    {filter : Option ScanFilter} {r : ScanResult}
    (h : r ∈ scan rootDir ok entries emit filter) :
    r.path = rootDir ++ r.relativePath ∧ chainTo filter r.relativePath := by
  have h1 := mem_findArtifacts_of_mem_scan h
  cases ok with
  | false => simp [findArtifacts] at h1
  | true =>
      simp only [findArtifacts] at h1
      obtain ⟨hp, q, hq, hc⟩ := walk_results_chain rootDir [] entries filter emit 0 r h1
      simp only [List.nil_append] at hq
      exact ⟨hp, hq ▸ hc⟩

/-- C1: under an `only` filter, every record `scan` returns has a basename
(the last segment of its path) in the union of the selected categories'
basename sets; for `{only: [node]}` that union is exactly `node_modules`,
`bower_components`, `.pnpm-store`.  The filter semantics itself is
modelled from the spec (the filter-bearing scanner variant is not in the
sources shown). -/
theorem scan_only_filter_basenames :
    ∀ (rootDir : List String) (ok : Bool) (entries : List FSTree) (emit : Bool)
      (cats : List String) (r : ScanResult),
      r ∈ scan rootDir ok entries emit (some (.only cats)) →
      ∃ m, r.path.getLast? = some m ∧ m ∈ categoryBasenames cats ∧
        (cats = ["node"] → m ∈ ["node_modules", "bower_components", ".pnpm-store"]) := by
  intro rootDir ok entries emit cats r h
  obtain ⟨hp, q0, m, hq, hall, hm⟩ := scan_mem_chain h
  refine ⟨m, ?_, ?_, ?_⟩
  · rw [hp, hq, ← List.append_assoc]
    exact List.getLast?_concat _
  · have hm2 := hm
    simp only [matchesName, allowedBy, Bool.and_eq_true, decide_eq_true_eq] at hm2
    exact hm2.2
  · intro hcats
    subst hcats
    have hmem : m ∈ categoryBasenames ["node"] := by
      have hm2 := hm
      simp only [matchesName, allowedBy, Bool.and_eq_true, decide_eq_true_eq] at hm2
      exact hm2.2
    have : categoryBasenames ["node"] =
        ["node_modules", "bower_components", ".pnpm-store"] := by decide
    rwa [this] at hmem

/-- Witness for `scan_only_filter_basenames`: a tree holding both a
`node_modules` and a (larger) `dist` directory, scanned with
`{only: [node]}`, yields only the `node_modules` record, whose basename is
in the node category. -/
theorem scan_only_filter_basenames_witness :
    ∃ m, ({ path := ["r", "node_modules"], relativePath := ["node_modules"],
            size := 200000, fileCount := 1,
            description := "Node.js dependencies" } : ScanResult).path.getLast? = some m ∧
      m ∈ categoryBasenames ["node"] ∧
      (["node"] = ["node"] → m ∈ ["node_modules", "bower_components", ".pnpm-store"]) := by
  refine scan_only_filter_basenames ["r"] true
    [.dir "node_modules" true [.file "x" (some 200000)],
     .dir "dist" true [.file "y" (some 300000)]] false ["node"] _ ?_
  simp [scan, findArtifacts, walkEntries, matchesName, allowedBy, getDirStats, statEntries,
    SKIP_DIRS, PATTERNS, List.lookup, MIN_SIZE, List.mergeSort, categoryBasenames,
    getCategories, registryBasenames]

/-- C3: every scan output is sorted non-increasingly by size, and no
record below the 102400-byte threshold survives the final filter. -/
theorem scan_sorted_and_threshold :
    ∀ (rootDir : List String) (ok : Bool) (entries : List FSTree) (emit : Bool)
      (filter : Option ScanFilter),
      List.Pairwise (fun a b : ScanResult => b.size ≤ a.size)
        (scan rootDir ok entries emit filter) ∧
      ∀ r ∈ scan rootDir ok entries emit filter, 102400 ≤ r.size := by
  intro rootDir ok entries emit filter
  constructor
  · have hs := @List.sorted_mergeSort ScanResult
      (fun a b : ScanResult => decide (b.size ≤ a.size))
      (fun a b c hab hbc => by
        simp only [decide_eq_true_eq] at hab hbc ⊢; omega)
      (fun a b => by
        simp only [Bool.or_eq_true, decide_eq_true_eq]; omega)
      ((findArtifacts rootDir [] ok entries filter emit 0).1)
    have hp : List.Pairwise (fun a b : ScanResult => b.size ≤ a.size)
        (((findArtifacts rootDir [] ok entries filter emit 0).1).mergeSort
          (fun a b => decide (b.size ≤ a.size))) :=
      hs.imp fun h => of_decide_eq_true h
    simpa only [scan] using hp.filter _
  · intro r hr
    simp only [scan] at hr
    have := List.of_mem_filter hr
    have := of_decide_eq_true this
    simpa [MIN_SIZE] using this

/-- Witness for `scan_sorted_and_threshold` at a concrete two-artifact
tree: the output is sorted and its first record is over the threshold. -/
theorem scan_sorted_and_threshold_witness :
    List.Pairwise (fun a b : ScanResult => b.size ≤ a.size)
      (scan ["r"] true
        [.dir "node_modules" true [.file "x" (some 200000)],
         .dir "dist" true [.file "y" (some 300000)]] false none) ∧
    102400 ≤ ({ path := ["r", "dist"], relativePath := ["dist"], size := 300000,
                fileCount := 1, description := "Build output" } : ScanResult).size := by
  have h := scan_sorted_and_threshold ["r"] true
    [.dir "node_modules" true [.file "x" (some 200000)],
     .dir "dist" true [.file "y" (some 300000)]] false none
  refine ⟨h.1, h.2 _ ?_⟩
  simp [scan, findArtifacts, walkEntries, matchesName, allowedBy, getDirStats, statEntries,
    SKIP_DIRS, PATTERNS, List.lookup, MIN_SIZE, List.mergeSort]

/-- Strict filesystem descent: `q` lies strictly below `p`. -/
def isDescendant (p q : List String) : Prop :=
  ∃ s, s ≠ [] ∧ q = p ++ s

/-- C4: no record's path in one scan result set lies strictly below another
record's path — a matched directory is never descended into, so artifacts
cannot nest. -/
theorem scan_results_never_nest :
    ∀ (rootDir : List String) (ok : Bool) (entries : List FSTree) (emit : Bool)
      (filter : Option ScanFilter) (r1 r2 : ScanResult),
      r1 ∈ scan rootDir ok entries emit filter →
      r2 ∈ scan rootDir ok entries emit filter →
      ¬ isDescendant r1.path r2.path := by
  intro rootDir ok entries emit filter r1 r2 h1 h2 hdesc
  obtain ⟨hp1, q01, m1, hq1, hall1, hm1⟩ := scan_mem_chain h1
  obtain ⟨hp2, q02, m2, hq2, hall2, hm2⟩ := scan_mem_chain h2
  obtain ⟨s, hs, heq⟩ := hdesc
  rw [hp1, hp2, List.append_assoc] at heq
  have hrel : r2.relativePath = r1.relativePath ++ s :=
    List.append_cancel_left heq
  rw [hq1, hq2] at hrel
  have hdl : ((q02 ++ [m2]).dropLast : List String) =
      ((q01 ++ [m1] ++ s).dropLast : List String) := by rw [hrel]
  rw [List.dropLast_append_of_ne_nil _ (by simp : ([m2] : List String) ≠ []),
    List.dropLast_append_of_ne_nil _ hs] at hdl
  simp only [List.dropLast_single, List.append_nil] at hdl
  have hmem : m1 ∈ q02 := by
    rw [hdl]
    simp
  have hfalse := hall2 m1 hmem
  rw [hm1] at hfalse
  exact Bool.true_eq_false ▸ hfalse

/-- Witness for `scan_results_never_nest` on a concrete two-artifact tree:
the `dist` record's path is not an ancestor of the `node_modules` one. -/
theorem scan_results_never_nest_witness :
    ¬ isDescendant
      ({ path := ["r", "dist"], relativePath := ["dist"], size := 300000,
         fileCount := 1, description := "Build output" } : ScanResult).path
      ({ path := ["r", "node_modules"], relativePath := ["node_modules"],
         size := 200000, fileCount := 1,
         description := "Node.js dependencies" } : ScanResult).path := by
  refine scan_results_never_nest ["r"] true
    [.dir "node_modules" true [.file "x" (some 200000)],
     .dir "dist" true [.file "y" (some 300000)]] false none _ _ ?_ ?_ <;>
  simp [scan, findArtifacts, walkEntries, matchesName, allowedBy, getDirStats, statEntries,
    SKIP_DIRS, PATTERNS, List.lookup, MIN_SIZE, List.mergeSort]

theorem clampScroll_cursor (vh : Nat) (st : SelState) :
    (clampScroll vh st).cursor = st.cursor := rfl

theorem clampScroll_selected (vh : Nat) (st : SelState) :
    (clampScroll vh st).selected = st.selected := rfl

theorem handleKey_next_cursor {items : List ScanResult} {vh : Nat}
    {st st2 : SelState} {key : String}
    (h : handleKey items vh st key = .next st2) :
    st2.cursor = st.cursor - 1 ∨
    st2.cursor = min (items.length - 1) (st.cursor + 1) ∨
    st2.cursor = st.cursor := by
  unfold handleKey at h
  split_ifs at h <;> (try (injection h with h2; subst h2)) <;>
    simp [clampScroll_cursor]

theorem handleKey_cursor_le {items : List ScanResult} {vh : Nat}
    {st st2 : SelState} {key : String}
    (hc : st.cursor ≤ items.length - 1)
    (h : handleKey items vh st key = .next st2) :
    st2.cursor ≤ items.length - 1 := by
  rcases handleKey_next_cursor h with h1 | h1 | h1 <;> rw [h1] <;> omega

theorem runKeys_pending_cursor {items : List ScanResult} {vh : Nat} :
    ∀ (keys : List String) (st st2 : SelState),
      st.cursor ≤ items.length - 1 →
      runKeys items vh st keys = .pending st2 →
      st2.cursor ≤ items.length - 1 := by
  intro keys
  induction keys with
  | nil =>
      intro st st2 hc hr
      simp only [runKeys] at hr
      injection hr with h
      exact h ▸ hc
  | cons k rest ih =>
      intro st st2 hc hr
      simp only [runKeys] at hr
      cases hh : handleKey items vh st k with
      | next st3 =>
          rw [hh] at hr
          exact ih st3 st2 (handleKey_cursor_le hc hh) hr
      | exited c st3 => rw [hh] at hr; cases hr
      | resolvedWith v st3 => rw [hh] at hr; cases hr

/-- C7: starting from the selector's initial state, no sequence of
keystrokes moves the cursor outside `[0, length - 1]`; the up keys at
index 0 leave the cursor at 0, and the down keys at the last index leave
it there. -/
theorem cursor_stays_in_bounds :
    ∀ (items : List ScanResult) (vh : Nat), items ≠ [] →
      (∀ (keys : List String) (st2 : SelState),
        runKeys items vh (initState items) keys = .pending st2 →
        st2.cursor ≤ items.length - 1) ∧
      (∀ (st st2 : SelState), st.cursor = 0 →
        handleKey items vh st "\x1b[A" = .next st2 ∨
          handleKey items vh st "k" = .next st2 →
        st2.cursor = 0) ∧
      (∀ (st st2 : SelState), st.cursor = items.length - 1 →
        handleKey items vh st "\x1b[B" = .next st2 ∨
          handleKey items vh st "j" = .next st2 →
        st2.cursor = items.length - 1) := by
  intro items vh _
  refine ⟨?_, ?_, ?_⟩
  · intro keys st2 hr
    exact runKeys_pending_cursor keys (initState items) st2 (by simp [initState]) hr
  · intro st st2 hc h
    have hup : ∀ key : String, key = "\x1b[A" ∨ key = "k" →
        handleKey items vh st key =
          .next (clampScroll vh { st with cursor := st.cursor - 1 }) := by
      rintro key (rfl | rfl) <;> rfl
    rcases h with h | h <;>
      [rw [hup _ (Or.inl rfl)] at h; rw [hup _ (Or.inr rfl)] at h] <;>
      injection h with h2 <;> rw [← h2, clampScroll_cursor] <;> simp [hc]
  · intro st st2 hc h
    have hdown : ∀ key : String, key = "\x1b[B" ∨ key = "j" →
        handleKey items vh st key =
          .next (clampScroll vh
            { st with cursor := min (items.length - 1) (st.cursor + 1) }) := by
      rintro key (rfl | rfl) <;> rfl
    rcases h with h | h <;>
      [rw [hdown _ (Or.inl rfl)] at h; rw [hdown _ (Or.inr rfl)] at h] <;>
      injection h with h2 <;> rw [← h2, clampScroll_cursor] <;> simp [hc]

/-- Witness for `cursor_stays_in_bounds` on a one-record list after a
down-key press. -/
theorem cursor_stays_in_bounds_witness :
    ({ selected := [true], cursor := 0, scrollOffset := 0,
       rawMode := true } : SelState).cursor ≤
      ([({ path := ["r", "node_modules"], relativePath := ["node_modules"],
           size := 200000, fileCount := 1,
           description := "Node.js dependencies" } : ScanResult)]).length - 1 :=
  (cursor_stays_in_bounds
    [{ path := ["r", "node_modules"], relativePath := ["node_modules"],
       size := 200000, fileCount := 1, description := "Node.js dependencies" }]
    10 (by simp)).1 ["j"]
    { selected := [true], cursor := 0, scrollOffset := 0, rawMode := true }
    (by decide)

theorem zip_replicate_false_filter :
    ∀ (l : List ScanResult) (n : Nat),
      (l.zip (List.replicate n false)).filter (fun p => p.2) = [] := by
  intro l
  induction l with
  | nil => intro n; simp
  | cons a l ih =>
      intro n
      cases n with
      | zero => simp
      | succ n => simp [List.replicate_succ, ih n]

/-- C8: the selector starts with every item selected, and from the initial
state the key sequence select-none, toggle (cursor still at 0), confirm
resolves with exactly the first record. -/
theorem select_none_then_toggle_confirm :
    ∀ (items : List ScanResult) (vh : Nat) (x : ScanResult)
      (rest : List ScanResult), items = x :: rest →
      (initState items).selected = List.replicate items.length true ∧
      ∃ st2, runKeys items vh (initState items) ["n", " ", "\r"] =
        .resolvedWith [x] st2 := by
  intro items vh x rest hitems
  subst hitems
  refine ⟨rfl, ?_⟩
  have h1 : ∀ st : SelState, handleKey (x :: rest) vh st "n" =
      .next (clampScroll vh
        { st with selected := List.replicate st.selected.length false }) := fun _ => rfl
  have h2 : ∀ st : SelState, handleKey (x :: rest) vh st " " =
      .next (clampScroll vh
        { st with selected := st.selected.set st.cursor (!(st.selected.getD st.cursor false)) }) := fun _ => rfl
  have h3 : ∀ st : SelState, handleKey (x :: rest) vh st "\r" =
      .resolvedWith (selectSubset (x :: rest) st.selected) (cleanup st) := fun _ => rfl
  simp only [runKeys, h1, h2, h3, clampScroll_selected, clampScroll_cursor, initState,
    List.length_replicate, List.length_cons, List.replicate_succ, List.getD_cons_zero,
    List.set_cons_zero, Bool.not_false]
  simp [selectSubset, zip_replicate_false_filter]

/-- Witness for `select_none_then_toggle_confirm` on a one-record list. -/
theorem select_none_then_toggle_confirm_witness :
    (initState [({ path := ["r", "node_modules"], relativePath := ["node_modules"],
                   size := 200000, fileCount := 1,
                   description := "Node.js dependencies" } : ScanResult)]).selected =
      List.replicate 1 true ∧
    ∃ st2, runKeys
        [{ path := ["r", "node_modules"], relativePath := ["node_modules"],
           size := 200000, fileCount := 1, description := "Node.js dependencies" }]
        10
        (initState
          [{ path := ["r", "node_modules"], relativePath := ["node_modules"],
             size := 200000, fileCount := 1, description := "Node.js dependencies" }])
        ["n", " ", "\r"] =
      .resolvedWith
        [{ path := ["r", "node_modules"], relativePath := ["node_modules"],
           size := 200000, fileCount := 1, description := "Node.js dependencies" }] st2 :=
  select_none_then_toggle_confirm
    [{ path := ["r", "node_modules"], relativePath := ["node_modules"],
       size := 200000, fileCount := 1, description := "Node.js dependencies" }]
    10 _ [] rfl

/-- C5 (counterexample): the claim says an interrupt makes the selector
resolve with the empty subset.  On a concrete one-record session, the
interrupt key makes the handler call `cleanup` and then `process.exit(0)`:
the session ends as an exit of the process (raw mode released), and the
promise is never resolved — with the empty subset or any other value. -/
theorem interrupt_exits_without_resolving :
    runKeys
      [{ path := ["r", "node_modules"], relativePath := ["node_modules"],
         size := 200000, fileCount := 1, description := "Node.js dependencies" }]
      10
      (initState
        [{ path := ["r", "node_modules"], relativePath := ["node_modules"],
           size := 200000, fileCount := 1, description := "Node.js dependencies" }])
      ["\x03"] =
      .exited 0 { selected := [true], cursor := 0, scrollOffset := 0, rawMode := false } ∧
    ¬ ∃ st2, runKeys
      [{ path := ["r", "node_modules"], relativePath := ["node_modules"],
         size := 200000, fileCount := 1, description := "Node.js dependencies" }]
      10
      (initState
        [{ path := ["r", "node_modules"], relativePath := ["node_modules"],
           size := 200000, fileCount := 1, description := "Node.js dependencies" }])
      ["\x03"] = .resolvedWith [] st2 := by
  constructor
  · decide
  · rintro ⟨st2, hst⟩
    rw [show runKeys
      [{ path := ["r", "node_modules"], relativePath := ["node_modules"],
         size := 200000, fileCount := 1, description := "Node.js dependencies" }]
      10
      (initState
        [{ path := ["r", "node_modules"], relativePath := ["node_modules"],
           size := 200000, fileCount := 1, description := "Node.js dependencies" }])
      ["\x03"] =
      .exited 0 { selected := [true], cursor := 0, scrollOffset := 0, rawMode := false }
      from by decide] at hst
    cases hst

theorem handleKey_exited_shape {items : List ScanResult} {vh : Nat}
    {st st2 : SelState} {key : String} {c : Nat}
    (h : handleKey items vh st key = .exited c st2) :
    c = 0 ∧ st2 = cleanup st := by
  unfold handleKey at h
  split_ifs at h <;> (injection h with h1 h2; exact ⟨h1.symm, h2.symm⟩)

theorem handleKey_resolved_shape {items : List ScanResult} {vh : Nat}
    {st st2 : SelState} {key : String} {v : List ScanResult}
    (h : handleKey items vh st key = .resolvedWith v st2) :
    st2 = cleanup st := by
  unfold handleKey at h
  split_ifs at h <;> (injection h with h1 h2; exact h2.symm)

theorem runKeys_exited_rawMode {items : List ScanResult} {vh : Nat} :
    ∀ (keys : List String) (st st2 : SelState) (c : Nat),
      runKeys items vh st keys = .exited c st2 → c = 0 ∧ st2.rawMode = false := by
  intro keys
  induction keys with
  | nil => intro st st2 c hr; cases hr
  | cons k rest ih =>
      intro st st2 c hr
      simp only [runKeys] at hr
      cases hh : handleKey items vh st k with
      | next st3 => rw [hh] at hr; exact ih st3 st2 c hr
      | exited c3 st3 =>
          rw [hh] at hr
          injection hr with h1 h2
          obtain ⟨hc, hcl⟩ := handleKey_exited_shape hh
          exact ⟨h1 ▸ hc, h2 ▸ hcl ▸ rfl⟩
      | resolvedWith v3 st3 => rw [hh] at hr; cases hr

theorem runKeys_resolved_rawMode {items : List ScanResult} {vh : Nat} :
    ∀ (keys : List String) (st st2 : SelState) (v : List ScanResult),
      runKeys items vh st keys = .resolvedWith v st2 → st2.rawMode = false := by
  intro keys
  induction keys with
  | nil => intro st st2 v hr; cases hr
  | cons k rest ih =>
      intro st st2 v hr
      simp only [runKeys] at hr
      cases hh : handleKey items vh st k with
      | next st3 => rw [hh] at hr; exact ih st3 st2 v hr
      | exited c3 st3 => rw [hh] at hr; cases hr
      | resolvedWith v3 st3 =>
          rw [hh] at hr
          injection hr with h1 h2
          exact h2 ▸ handleKey_resolved_shape hh ▸ rfl

/-- C5 (amended): an interrupt during selection releases raw mode and
terminates the process immediately with exit code 0 — the promise is never
resolved (the quit key is the path that resolves with the empty subset);
and on every way the session ends (interrupt, quit, confirm) the terminal
has been restored to non-raw mode by `cleanup`. -/
theorem selector_exit_paths_restore_terminal :
    ∀ (items : List ScanResult) (vh : Nat),
      (∀ st : SelState, handleKey items vh st "\x03" = .exited 0 (cleanup st) ∧
        (cleanup st).rawMode = false) ∧
      (∀ st : SelState, handleKey items vh st "q" = .resolvedWith [] (cleanup st)) ∧
      (∀ (keys : List String) (st st2 : SelState) (c : Nat),
        runKeys items vh st keys = .exited c st2 → c = 0 ∧ st2.rawMode = false) ∧
      (∀ (keys : List String) (st st2 : SelState) (v : List ScanResult),
        runKeys items vh st keys = .resolvedWith v st2 → st2.rawMode = false) := by
  intro items vh
  exact ⟨fun st => ⟨rfl, rfl⟩, fun st => rfl,
    fun keys st st2 c => runKeys_exited_rawMode keys st st2 c,
    fun keys st st2 v => runKeys_resolved_rawMode keys st st2 v⟩

/-- Witness for `selector_exit_paths_restore_terminal`: a concrete
interrupted run ends with exit code 0 and raw mode released. -/
theorem selector_exit_paths_restore_terminal_witness :
    0 = 0 ∧ ({ selected := [true], cursor := 0, scrollOffset := 0,
               rawMode := false } : SelState).rawMode = false :=
  (selector_exit_paths_restore_terminal
    [{ path := ["r", "node_modules"], relativePath := ["node_modules"],
       size := 200000, fileCount := 1, description := "Node.js dependencies" }]
    10).2.2.1 ["\x03"]
    (initState
      [{ path := ["r", "node_modules"], relativePath := ["node_modules"],
         size := 200000, fileCount := 1, description := "Node.js dependencies" }])
    { selected := [true], cursor := 0, scrollOffset := 0, rawMode := false }
    0 (by decide)
